import Mathlib

/-!
Verification of the quantumfed data module: a shallow embedding of
src/quantumfed/data/datasets.py (classes BaseDataset and SimpleNSLKDD and
the factory get_dataset) together with models of the pandas and sklearn
primitives it calls.  Machine floats are modelled by exact rationals;
pandas DataFrames by ordered lists of named columns; Python prints by an
accumulated list of log strings; Python exceptions by an Except value.
-/

/-- The single quote character, used when building Python-style messages. -/
def pyQuote : String := String.singleton (Char.ofNat 39)

/-- A cell of a pandas DataFrame: either a number or a string.  Floats are
modelled as exact rationals. -/
inductive Value where
  | num (q : ℚ)
  | str (s : String)
deriving DecidableEq

/-- A pandas DataFrame: columns in order, each a name paired with its cell
values (row-major order inside each column). -/
def DataFrame : Type := List (String × List Value)

instance : DecidableEq DataFrame := by unfold DataFrame; infer_instance

/-- The Python exceptions that the embedded code can raise. -/
inductive PyError where
  | fileNotFoundError (msg : String)
  | emptyDataError (msg : String)
  | parserError (msg : String)
  | indexError (msg : String)
  | valueError (msg : String)
deriving DecidableEq

/-- Python int() applied to a rational: truncation toward zero.  For the
nonnegative products arising in this code it agrees with the floor. -/
def pyInt (q : ℚ) : ℤ :=
  if 0 ≤ q then ⌊q⌋ else -⌊-q⌋

/-- A filesystem: maps a path to the parsed rows of a delimiter-separated
file (each row a list of raw fields), or none when the file is absent. -/
def FileSystem : Type := String → Option (List (List String))

/-- Parse one CSV field as a decimal number, as the pandas reader does when
it converts a column: optional minus sign, digits, optional fractional
digits. -/
def parseNum? (s : String) : Option ℚ :=
  let core (t : String) : Option ℚ :=
    match t.splitOn "." with
    | [a] => (a.toNat?).map (fun m => (m : ℚ))
    | [a, b] =>
      match a.toNat?, b.toNat? with
      | some ai, some bi => some ((ai : ℚ) + (bi : ℚ) / ((10 : ℚ) ^ b.length))
      | _, _ => none
    | _ => none
  if s.startsWith "-" then (core (s.drop 1)).map (fun q => -q)
  else core s

/-- Models the per-column type inference of pandas read_csv: a column all of
whose fields parse as numbers becomes a numeric column, otherwise every
field stays a string. -/
def parseColumn (fields : List String) : List Value :=
  if fields.all (fun s => (parseNum? s).isSome) then
    fields.map (fun s => Value.num ((parseNum? s).getD 0))
  else
    fields.map Value.str

/-- Models pandas read_csv with header=None: a missing file raises
FileNotFoundError, a file with no rows raises EmptyDataError, rows whose
field count differs from the first row raise ParserError (pandas pads
short rows, a case no claim touches), and otherwise the columns get the
positional names 0..w-1. -/
def read_csv (fs : FileSystem) (path : String) : Except PyError DataFrame :=
  match fs path with
  | none => .error (.fileNotFoundError path)
  | some rows =>
    if rows.isEmpty then
      .error (.emptyDataError "No columns to parse from file")
    else
      let w := (rows.headD []).length
      if rows.all (fun r => r.length = w) then
        .ok ((List.range w).map
          (fun j => (toString j, parseColumn (rows.map (fun r => r.getD j "")))))
      else
        .error (.parserError "inconsistent field counts")

/-- True when every cell of the column is numeric; pandas get_dummies
leaves such columns alone and encodes the rest. -/
def isNumericCol (vs : List Value) : Bool :=
  vs.all (fun v => match v with | .num _ => true | .str _ => false)

/-- The numeric content of a cell (the default 0 is never reached on the
all-numeric columns this is applied to). -/
def valToQ (v : Value) : ℚ :=
  match v with
  | .num q => q
  | .str _ => 0

/-- Models pandas get_dummies with drop_first=True on one categorical
column: one indicator column per observed category except the first.
Categories are taken in order of first appearance (pandas sorts them; the
order only decides which indicator is dropped, which no property here
depends on). -/
def dummyCols (vs : List Value) : List (List ℚ) :=
  (vs.dedup.drop 1).map (fun c => vs.map (fun v => if v = c then (1 : ℚ) else 0))

/-- Models pd.get_dummies(X, drop_first=True) on the feature columns: the
numeric columns pass through first, then the indicator expansions of the
categorical columns are appended, as pandas does. -/
def get_dummies (cols : List (List Value)) : List (List ℚ) :=
  (cols.filter isNumericCol).map (fun vs => vs.map valToQ) ++
    (cols.filter (fun vs => !isNumericCol vs)).flatMap dummyCols

/-- Models sklearn MinMaxScaler on one column: shift by the observed
minimum and divide by the observed range, dividing by 1 when the range is
zero exactly as _handle_zeros_in_scale does. -/
def minMaxScaleCol (c : List ℚ) : List ℚ :=
  match c.min?, c.max? with
  | some mn, some mx =>
    let d := if mx - mn = 0 then 1 else mx - mn
    c.map (fun x => (x - mn) / d)
  | _, _ => []

/-- BaseDataset._preprocess: split off the last column as labels (the
empty frame from the missing-file fallback has no last column, so the
iloc access raises IndexError, as pandas does on a zero-column frame),
one-hot encode the categorical feature columns, min-max scale every
resulting column (sklearn fit_transform rejects empty inputs), and return
the scaled matrix in row-major form together with the raw labels. -/
def _preprocess (df : DataFrame) : Except PyError (List (List ℚ) × List Value) :=
  match (df : List (String × List Value)).getLast? with
  | none => .error (.indexError "single positional indexer is out-of-bounds")
  | some lastCol =>
    let Xcols := (df : List (String × List Value)).dropLast.map Prod.snd
    let y := lastCol.2
    let encoded := get_dummies Xcols
    if y.length = 0 then
      .error (.valueError "Found array with 0 sample(s)")
    else if encoded.length = 0 then
      .error (.valueError "Found array with 0 feature(s)")
    else
      let scaled := encoded.map minMaxScaleCol
      .ok (((List.range y.length).map (fun i => scaled.map (fun c => c.getD i 0))), y)

/-- A deterministic hash mixing a seed and an index, standing in for the
numpy pseudo-random stream (whose exact output is outside the scope of
this embedding; every property below depends only on the split being a
seed-determined permutation of the rows). -/
def seedHash (seed i : Nat) : Nat :=
  (seed * 6364136223846793005 + i * 1442695040888963407 + 1013904223) % 4294967296

/-- Models numpy rng.permutation under a fixed seed: a permutation of the
input list fully determined by the seed, realised by sorting on a
seed-keyed hash (ties broken by the element itself). -/
def shuffleList (seed : Nat) (l : List Nat) : List Nat :=
  l.mergeSort (fun a b => decide
    (seedHash seed a < seedHash seed b ∨ (seedHash seed a = seedHash seed b ∧ a ≤ b)))

/-- Distribute r leftover test slots over the classes, capped by each
class size: models the rounding step of the sklearn stratified splitter
(_approximate_mode); pairs are (class size, floor allocation). -/
def addRemainder : Nat → List (Nat × Nat) → List Nat
  | _, [] => []
  | r, (cap, b) :: rest =>
    if b < cap ∧ 0 < r then (b + 1) :: addRemainder (r - 1) rest
    else b :: addRemainder r rest

/-- The indices of the rows whose label equals c, in row order. -/
def classIndices (ys : List Value) (c : Value) : List Nat :=
  (List.range ys.length).filter (fun i => ys.getD i (.str "") = c)

/-- Per-class test-set sizes for the stratified splitter: a floor of the
proportional share per class, with the leftovers given to the earliest
classes that still have capacity. -/
def stratAlloc (ys : List Value) (n_test : Nat) : List Nat :=
  let n := ys.length
  let caps := ys.dedup.map (fun c => (classIndices ys c).length)
  let base := caps.map (fun k => k * n_test / n)
  addRemainder (n_test - base.sum) (caps.zip base)

/-- The index split behind sklearn train_test_split: without
stratification, shuffle 0..n-1 and cut off the first n_test indices as
the test set (ShuffleSplit); with stratification, shuffle each class of
the label vector separately and take the allocated number of test
indices from each class (StratifiedShuffleSplit).  Returns (train
indices, test indices). -/
def splitIndices (seed n_test n : Nat) (strat : Option (List Value)) :
    List Nat × List Nat :=
  match strat with
  | none =>
    let p := shuffleList seed (List.range n)
    (p.drop n_test, p.take n_test)
  | some ys =>
    let groups := ys.dedup.map (fun c => shuffleList seed (classIndices ys c))
    let alloc := stratAlloc ys n_test
    ((List.zipWith (fun a g => List.drop a g) alloc groups).flatten,
     (List.zipWith (fun a g => List.take a g) alloc groups).flatten)

/-- Models sklearn.model_selection.train_test_split as called by the
repository: a fractional test_size outside (0, 1) is rejected; the test
set gets ceil(n * test_size) rows and the train set the rest, neither of
which may be empty; with stratify set, every class must have at least
two members and both parts must have at least as many rows as there are
classes.  Returns (X_train, X_test, y_train, y_test) in the sklearn
unpacking order. -/
def train_test_split (X : List (List ℚ)) (y : List Value) (test_size : ℚ)
    (random_state : Nat) (stratify : Option (List Value)) :
    Except PyError (List (List ℚ) × List (List ℚ) × List Value × List Value) :=
  if X.length ≠ y.length then
    .error (.valueError "Found input variables with inconsistent numbers of samples")
  else if ¬(0 < test_size ∧ test_size < 1) then
    .error (.valueError "test_size should be positive and smaller than 1")
  else
    let n := y.length
    let n_test := (⌈(n : ℚ) * test_size⌉).toNat
    let n_train := n - n_test
    if n_test = 0 ∨ n_train = 0 then
      .error (.valueError "the resulting train or test set will be empty")
    else
      match stratify with
      | some ys =>
        if ys.length ≠ y.length then
          .error (.valueError "Found input variables with inconsistent numbers of samples")
        else if (ys.dedup.map (fun c => (classIndices ys c).length)).any (fun k => k < 2) then
          .error (.valueError "The least populated class in y has only 1 member")
        else if n_test < ys.dedup.length ∨ n_train < ys.dedup.length then
          .error (.valueError "the test_size should be greater or equal to the number of classes")
        else
          let idx := splitIndices random_state n_test n (some ys)
          .ok (idx.1.map (fun i => X.getD i []), idx.2.map (fun i => X.getD i []),
               idx.1.map (fun i => y.getD i (.str "")), idx.2.map (fun i => y.getD i (.str "")))
      | none =>
        let idx := splitIndices random_state n_test n none
        .ok (idx.1.map (fun i => X.getD i []), idx.2.map (fun i => X.getD i []),
             idx.1.map (fun i => y.getD i (.str "")), idx.2.map (fun i => y.getD i (.str "")))

/-- The warning printed by BaseDataset._split_data when it disables
stratification. -/
def stratWarning (test_samples : ℤ) (num_classes : ℕ) : String :=
  let t := toString test_samples
  let k := toString num_classes
  s!"Warning: Test set size ({t}) is smaller than number of classes ({k}). Disabling stratification for this split."

/-- BaseDataset._split_data: compute the sample count, the distinct label
count (pd.unique) and int(num_samples * test_size); stratify exactly when
the latter is at least the class count, printing the warning otherwise;
then call train_test_split.  The second component collects the printed
lines. -/
def _split_data (X : List (List ℚ)) (y : List Value) (test_size : ℚ)
    (random_state : Nat) :
    Except PyError (List (List ℚ) × List (List ℚ) × List Value × List Value) × List String :=
  let num_samples := y.length
  let num_classes := y.dedup.length
  let test_samples := pyInt ((num_samples : ℚ) * test_size)
  let should_stratify : Bool := (num_classes : ℤ) ≤ test_samples
  let stratify_option := if should_stratify then some y else none
  let warn := if should_stratify then [] else [stratWarning test_samples num_classes]
  match train_test_split X y test_size random_state stratify_option with
  | .error e => (.error e, warn)
  | .ok r =>
    let trn := toString r.1.length
    let ten := toString r.2.1.length
    (.ok r, warn ++ ["Data split completed.",
      s!"Train set size: {trn}", s!"Test set size: {ten}"])

/-- The state of a BaseDataset instance: the constructor arguments and
the four split containers, which start out as Python None. -/
structure Loader where
  data_path : String
  test_size : ℚ
  random_state : Nat
  X_train : Option (List (List ℚ))
  y_train : Option (List Value)
  X_test : Option (List (List ℚ))
  y_test : Option (List Value)
deriving DecidableEq

/-- SimpleNSLKDD._load_data: read the CSV with header=None and rename the
columns to feature_0..feature_(n-1) plus label.  A FileNotFoundError is
caught: two diagnostics are printed and an empty frame is returned so
that, in the words of the source comment, the program is not crashed.
Any other reader error propagates.  The second component collects the
printed lines. -/
def SimpleNSLKDD_load_data (fs : FileSystem) (data_path : String) :
    Except PyError DataFrame × List String :=
  match read_csv fs data_path with
  | .error (.fileNotFoundError _) =>
    (.ok ([] : List (String × List Value)),
     [s!"Error: Data file not found at {data_path}",
      "Please create a dummy data file to proceed."])
  | .error e => (.error e, [])
  | .ok df =>
    let num_features := (df : List (String × List Value)).length - 1
    let names := (List.range num_features).map (fun i => s!"feature_{i}") ++ ["label"]
    (.ok (List.zipWith (fun nm c => (nm, c.2)) names df), [])

/-- BaseDataset._load_and_process, inlined with __init__ for the concrete
SimpleNSLKDD class: record the constructor arguments, then run
load -> preprocess -> split, filling the four containers on success.  The
second component collects every line printed along the way. -/
def mkSimpleNSLKDD (fs : FileSystem) (data_path : String) (test_size : ℚ)
    (random_state : Nat) : Except PyError Loader × List String :=
  let l0 := s!"Loading data from {data_path}..."
  match SimpleNSLKDD_load_data fs data_path with
  | (.error e, lg) => (.error e, l0 :: lg)
  | (.ok raw_df, lg) =>
    match _preprocess raw_df with
    | .error e => (.error e, l0 :: lg ++ ["Preprocessing data..."])
    | .ok (X, y) =>
      match _split_data X y test_size random_state with
      | (.error e, lg2) => (.error e, l0 :: lg ++ ["Preprocessing data..."] ++ lg2)
      | (.ok (Xtr, Xte, ytr, yte), lg2) =>
        (.ok { data_path := data_path, test_size := test_size,
               random_state := random_state,
               X_train := some Xtr, y_train := some ytr,
               X_test := some Xte, y_test := some yte },
         l0 :: lg ++ ["Preprocessing data..."] ++ lg2 ++ ["Dataset ready."])

/-- BaseDataset.get_data: return the four stored containers, in the order
(X_train, y_train, X_test, y_test), touching nothing. -/
def get_data (l : Loader) :
    Option (List (List ℚ)) × Option (List Value) × Option (List (List ℚ)) × Option (List Value) :=
  (l.X_train, l.y_train, l.X_test, l.y_test)

/-- The names registered in the factory dictionary dataset_map. -/
def dataset_map_keys : List String := ["simple_nslkdd"]

/-- The Python repr of a list of strings, as str(list(...)) prints it. -/
def pyListRepr (keys : List String) : String :=
  "[" ++ String.intercalate ", " (keys.map (fun k => pyQuote ++ k ++ pyQuote)) ++ "]"

/-- The message of the ValueError raised for an unregistered name: it
interpolates the name and the Python repr of list(dataset_map.keys()). -/
def unknownDatasetMsg (name : String) : String :=
  "Dataset " ++ pyQuote ++ name ++ pyQuote ++
    " not recognized. Available datasets: " ++ pyListRepr dataset_map_keys

/-- The factory get_dataset: an unregistered name raises a ValueError
listing the registered names; a registered name constructs the mapped
class with the given path and the constructor defaults test_size=0.2 and
random_state=42 (the factory passes only data_path). -/
def get_dataset (fs : FileSystem) (name : String) (data_path : String) :
    Except PyError Loader × List String :=
  if name ∈ dataset_map_keys then
    mkSimpleNSLKDD fs data_path (1/5 : ℚ) 42
  else
    (.error (.valueError (unknownDatasetMsg name)), [])

/-- The loader held by a factory or constructor result, when there is
one. -/
def getLoader? (r : Except PyError Loader) : Option Loader :=
  match r with
  | .ok l => some l
  | .error _ => none

/-- After construction the only public operation on a loader is
get_data; a trace of k such calls, returning the outputs observed and the
final state. -/
def runCalls (l : Loader) : Nat →
    List (Option (List (List ℚ)) × Option (List Value) × Option (List (List ℚ)) × Option (List Value)) × Loader
  | 0 => ([], l)
  | k + 1 =>
    let out := get_data l
    let rest := runCalls l k
    (out :: rest.1, rest.2)

/-- The filesystem with no files at all. -/
def emptyFS : FileSystem := fun _ => none

/-- Rearranging four appended blocks preserves the multiset of indices. -/
lemma quad_append_perm (w x y z : List Nat) :
    ((x ++ w) ++ (y ++ z)).Perm ((y ++ x) ++ (w ++ z)) := by
  rw [List.perm_iff_count]
  intro a
  simp only [List.count_append]
  omega

/-- Splitting each block of a list of blocks at any cut and regrouping
all the tails before all the heads permutes the flattened whole. -/
lemma flatten_drop_take_perm :
    ∀ (al : List Nat) (gs : List (List Nat)), al.length = gs.length →
    ((List.zipWith (fun a g => List.drop a g) al gs).flatten ++
      (List.zipWith (fun a g => List.take a g) al gs).flatten).Perm gs.flatten := by
  intro al
  induction al with
  | nil =>
    intro gs h
    cases gs with
    | nil => simp
    | cons g gs => simp at h
  | cons a al ih =>
    intro gs h
    cases gs with
    | nil => simp at h
    | cons g gs =>
      simp only [List.zipWith_cons_cons, List.flatten_cons]
      have h2 := ih gs (by simpa using h)
      have step1 :
          ((List.drop a g ++ (List.zipWith (fun a g => List.drop a g) al gs).flatten) ++
            (List.take a g ++ (List.zipWith (fun a g => List.take a g) al gs).flatten)).Perm
          ((List.take a g ++ List.drop a g) ++
            ((List.zipWith (fun a g => List.drop a g) al gs).flatten ++
              (List.zipWith (fun a g => List.take a g) al gs).flatten)) :=
        quad_append_perm _ _ _ _
      rw [List.take_append_drop] at step1
      exact step1.trans (List.Perm.append_left g h2)

/-- Flattening pointwise-permuted blocks gives permuted flattenings. -/
lemma flatten_perm_of_forall₂ {l1 l2 : List (List Nat)}
    (h : List.Forall₂ List.Perm l1 l2) : l1.flatten.Perm l2.flatten := by
  induction h with
  | nil => simp
  | cons h1 _ ih => simpa using h1.append ih

/-- Shuffling each block is a pointwise permutation. -/
lemma forall₂_shuffle (seed : Nat) (gs : List (List Nat)) :
    List.Forall₂ List.Perm (gs.map (shuffleList seed)) gs := by
  induction gs with
  | nil => simp
  | cons g gs ih =>
    exact List.Forall₂.cons (List.mergeSort_perm g _) ih

/-- Partitioning a list of indices by the distinct values of a labelling
function recovers the whole list up to permutation. -/
lemma filter_partition_perm (f : Nat → Value) :
    ∀ (cs : List Value) (l : List Nat), cs.Nodup → (∀ a ∈ l, f a ∈ cs) →
    ((cs.map (fun c => l.filter (fun a => f a = c))).flatten).Perm l := by
  intro cs
  induction cs with
  | nil =>
    intro l _ hcov
    cases l with
    | nil => simp
    | cons a l => exact absurd (hcov a (List.mem_cons_self a l)) (List.not_mem_nil _)
  | cons c cs ih =>
    intro l hnd hcov
    simp only [List.map_cons, List.flatten_cons]
    have hrw : cs.map (fun c2 => l.filter (fun a => f a = c2)) =
        cs.map (fun c2 => (l.filter (fun a => !(decide (f a = c)))).filter (fun a => f a = c2)) := by
      apply List.map_congr_left
      intro c2 hc2
      rw [List.filter_filter]
      apply List.filter_congr
      intro a _
      by_cases hfa : f a = c2
      · have hne : c2 ≠ c := fun hcc => (List.nodup_cons.mp hnd).1 (hcc ▸ hc2)
        simp [hfa, hne]
      · simp [hfa]
    rw [hrw]
    have hcov2 : ∀ a ∈ l.filter (fun a => !(decide (f a = c))), f a ∈ cs := by
      intro a ha
      have hmem := List.mem_of_mem_filter ha
      have hprop := List.of_mem_filter ha
      have hne : f a ≠ c := by simpa using hprop
      have := hcov a hmem
      simp only [List.mem_cons] at this
      exact this.resolve_left hne
    have ihp := ih (l.filter (fun a => !(decide (f a = c)))) (List.nodup_cons.mp hnd).2 hcov2
    exact (List.Perm.append_left _ ihp).trans (List.filter_append_perm _ l)

/-- The remainder distribution keeps one entry per class. -/
lemma addRemainder_length : ∀ (r : Nat) (l : List (Nat × Nat)),
    (addRemainder r l).length = l.length := by
  intro r l
  induction l generalizing r with
  | nil => simp [addRemainder]
  | cons p rest ih =>
    obtain ⟨cap, b⟩ := p
    simp only [addRemainder]
    split
    · simp [ih]
    · simp [ih]

/-- The stratified allocation has one entry per distinct class. -/
lemma stratAlloc_length (ys : List Value) (n_test : Nat) :
    (stratAlloc ys n_test).length = ys.dedup.length := by
  simp [stratAlloc, addRemainder_length, List.length_zip]

/-- Each row index lands in the class list of its own label. -/
lemma flatten_classIndices_perm (ys : List Value) :
    ((ys.dedup.map (fun c => classIndices ys c)).flatten).Perm (List.range ys.length) := by
  have := filter_partition_perm (fun i => ys.getD i (.str "")) ys.dedup
    (List.range ys.length) (List.nodup_dedup ys) ?_
  · simpa [classIndices] using this
  · intro i hi
    rw [List.mem_range] at hi
    rw [List.mem_dedup]
    simp only []
    rw [List.getD_eq_getElem _ _ hi]
    exact List.getElem_mem hi

/-- The unstratified index split is a partition of the row indices. -/
lemma splitIndices_perm_none (seed t n : Nat) :
    ((splitIndices seed t n none).1 ++ (splitIndices seed t n none).2).Perm
      (List.range n) := by
  simp only [splitIndices]
  have h1 : (List.drop t (shuffleList seed (List.range n)) ++
      List.take t (shuffleList seed (List.range n))).Perm
      (shuffleList seed (List.range n)) := by
    have := @List.perm_append_comm Nat
      (List.drop t (shuffleList seed (List.range n)))
      (List.take t (shuffleList seed (List.range n)))
    rw [List.take_append_drop] at this
    exact this
  exact h1.trans (List.mergeSort_perm _ _)

/-- The stratified index split is a partition of the row indices. -/
lemma splitIndices_perm_some (seed t : Nat) (ys : List Value) :
    ((splitIndices seed t ys.length (some ys)).1 ++
      (splitIndices seed t ys.length (some ys)).2).Perm
      (List.range ys.length) := by
  simp only [splitIndices]
  have hlen : (stratAlloc ys t).length =
      (ys.dedup.map (fun c => shuffleList seed (classIndices ys c))).length := by
    simp [stratAlloc_length]
  have h1 := flatten_drop_take_perm (stratAlloc ys t)
    (ys.dedup.map (fun c => shuffleList seed (classIndices ys c))) hlen
  have h2 : ((ys.dedup.map (fun c => shuffleList seed (classIndices ys c))).flatten).Perm
      ((ys.dedup.map (fun c => classIndices ys c)).flatten) := by
    have hmap : ys.dedup.map (fun c => shuffleList seed (classIndices ys c)) =
        (ys.dedup.map (fun c => classIndices ys c)).map (shuffleList seed) := by
      rw [List.map_map]
      rfl
    rw [hmap]
    exact flatten_perm_of_forall₂ (forall₂_shuffle seed _)
  exact h1.trans (h2.trans (flatten_classIndices_perm ys))

/-- Reading a pair of same-length lists back through their indices is the
zip of the lists. -/
lemma range_map_getD_zip {α β : Type} (X : List α) (y : List β) (dx : α) (dy : β)
    (h : X.length = y.length) :
    (List.range y.length).map (fun i => (X.getD i dx, y.getD i dy)) = X.zip y := by
  apply List.ext_getElem
  · simp [List.length_zip, h]
  · intro i h1 h2
    simp only [List.getElem_map, List.getElem_range, List.getElem_zip]
    have hiy : i < y.length := by simpa using h1
    have hix : i < X.length := by omega
    rw [List.getD_eq_getElem _ _ hix, List.getD_eq_getElem _ _ hiy]

/-- Applying an index partition of the rows to both X and y yields the
shape and pairing invariants of the split. -/
lemma mapped_invariant (X : List (List ℚ)) (y : List Value) (tr te : List Nat)
    (hperm : (tr ++ te).Perm (List.range y.length)) (hXy : X.length = y.length) :
    (tr.map (fun i => X.getD i [])).length + (te.map (fun i => X.getD i [])).length = X.length ∧
    X.length = y.length ∧
    (tr.map (fun i => X.getD i [])).length = (tr.map (fun i => y.getD i (.str ""))).length ∧
    (te.map (fun i => X.getD i [])).length = (te.map (fun i => y.getD i (.str ""))).length ∧
    ((tr.map (fun i => X.getD i [])).zip (tr.map (fun i => y.getD i (.str ""))) ++
      (te.map (fun i => X.getD i [])).zip (te.map (fun i => y.getD i (.str "")))).Perm
      (X.zip y) := by
  have hn : tr.length + te.length = y.length := by
    have := hperm.length_eq
    simpa using this
  refine ⟨by simpa using hXy ▸ hn, hXy, by simp, by simp, ?_⟩
  rw [List.zip_map', List.zip_map', ← List.map_append]
  have hmap := hperm.map (fun i => (X.getD i [], y.getD i (.str "")))
  rwa [range_map_getD_zip X y [] (.str "") hXy] at hmap

/-- The shape and pairing invariants of one split result: vacuous on an
error, and on success the train and test parts partition the rows with
X and y rows kept aligned. -/
def splitInvariant (X : List (List ℚ)) (y : List Value)
    (r : Except PyError (List (List ℚ) × List (List ℚ) × List Value × List Value)) : Prop :=
  match r with
  | .error _ => True
  | .ok (Xtr, Xte, ytr, yte) =>
    Xtr.length + Xte.length = X.length ∧ X.length = y.length ∧
    Xtr.length = ytr.length ∧ Xte.length = yte.length ∧
    (Xtr.zip ytr ++ Xte.zip yte).Perm (X.zip y)

/-- Any successful call of the underlying splitter satisfies the shape
and pairing invariants. -/
lemma tts_invariant (X : List (List ℚ)) (y : List Value)
    (ts : ℚ) (seed : Nat) (strat : Option (List Value)) :
    splitInvariant X y (train_test_split X y ts seed strat) := by
  simp only [train_test_split]
  split
  · exact trivial
  next hlen =>
    split
    · exact trivial
    next hts =>
      split
      · exact trivial
      next hcut =>
        have hXy : X.length = y.length := by omega
        split
        next ys =>
          split
          · exact trivial
          next hys =>
            split
            · exact trivial
            split
            · exact trivial
            have hyl : ys.length = y.length := by omega
            have hperm := splitIndices_perm_some seed
              ((⌈(y.length : ℚ) * ts⌉).toNat) ys
            rw [hyl] at hperm
            simpa [splitInvariant] using
              mapped_invariant X y _ _ hperm hXy
        next =>
          have hperm := splitIndices_perm_none seed
            ((⌈(y.length : ℚ) * ts⌉).toNat) y.length
          simpa [splitInvariant] using
            mapped_invariant X y _ _ hperm hXy

/-- A min-fold is bounded by its initial value. -/
lemma foldl_min_le_init : ∀ (l : List ℚ) (a : ℚ), l.foldl min a ≤ a := by
  intro l
  induction l with
  | nil => intro a; simp
  | cons x l ih =>
    intro a
    simp only [List.foldl_cons]
    exact le_trans (ih (min a x)) (min_le_left a x)

/-- A min-fold is bounded by every element folded over. -/
lemma foldl_min_le_mem : ∀ (l : List ℚ) (a x : ℚ), x ∈ l → l.foldl min a ≤ x := by
  intro l
  induction l with
  | nil => intro a x hx; exact absurd hx (List.not_mem_nil x)
  | cons y l ih =>
    intro a x hx
    simp only [List.foldl_cons]
    rcases List.mem_cons.mp hx with h | h
    · subst h
      exact le_trans (foldl_min_le_init l (min a x)) (min_le_right a x)
    · exact ih (min a y) x h

/-- A max-fold dominates its initial value. -/
lemma init_le_foldl_max : ∀ (l : List ℚ) (a : ℚ), a ≤ l.foldl max a := by
  intro l
  induction l with
  | nil => intro a; simp
  | cons x l ih =>
    intro a
    simp only [List.foldl_cons]
    exact le_trans (le_max_left a x) (ih (max a x))

/-- A max-fold dominates every element folded over. -/
lemma mem_le_foldl_max : ∀ (l : List ℚ) (a x : ℚ), x ∈ l → x ≤ l.foldl max a := by
  intro l
  induction l with
  | nil => intro a x hx; exact absurd hx (List.not_mem_nil x)
  | cons y l ih =>
    intro a x hx
    simp only [List.foldl_cons]
    rcases List.mem_cons.mp hx with h | h
    · subst h
      exact le_trans (le_max_right a x) (init_le_foldl_max l (max a x))
    · exact ih (max a y) x h

/-- The computed column minimum bounds every column entry from below. -/
lemma min?_le_of_mem {c : List ℚ} {mn x : ℚ} (h : c.min? = some mn) (hx : x ∈ c) :
    mn ≤ x := by
  cases c with
  | nil => simp [List.min?] at h
  | cons a as =>
    simp only [List.min?] at h
    injection h with h
    subst h
    rcases List.mem_cons.mp hx with h | h
    · subst h; exact foldl_min_le_init as x
    · exact foldl_min_le_mem as a x h

/-- The computed column maximum bounds every column entry from above. -/
lemma le_max?_of_mem {c : List ℚ} {mx x : ℚ} (h : c.max? = some mx) (hx : x ∈ c) :
    x ≤ mx := by
  cases c with
  | nil => simp [List.max?] at h
  | cons a as =>
    simp only [List.max?] at h
    injection h with h
    subst h
    rcases List.mem_cons.mp hx with h | h
    · subst h; exact init_le_foldl_max as x
    · exact mem_le_foldl_max as a x h

/-- Every entry of a min-max scaled column lies in the unit interval. -/
lemma minMaxScaleCol_mem_unit {c : List ℚ} {v : ℚ} (hv : v ∈ minMaxScaleCol c) :
    0 ≤ v ∧ v ≤ 1 := by
  unfold minMaxScaleCol at hv
  split at hv
  next mn mx hmn hmx =>
    simp only [List.mem_map] at hv
    obtain ⟨x, hx, hvx⟩ := hv
    have h1 : mn ≤ x := min?_le_of_mem hmn hx
    have h2 : x ≤ mx := le_max?_of_mem hmx hx
    subst hvx
    by_cases hd : mx - mn = 0
    · have hxm : x = mn := le_antisymm (by linarith) h1
      simp [hd, hxm]
    · have hpos : 0 < mx - mn := by
        rcases lt_or_eq_of_le (le_trans h1 h2) with h | h
        · linarith
        · exact absurd (by rw [h]; ring) hd
      rw [if_neg hd]
      constructor
      · exact div_nonneg (by linarith) (le_of_lt hpos)
      · rw [div_le_one hpos]
        linarith
  next =>
    exact absurd hv (List.not_mem_nil v)

/-- A default read from a column is an entry or the default. -/
lemma getD_mem_or_default {α : Type} (c : List α) (i : Nat) (d : α) :
    c.getD i d ∈ c ∨ c.getD i d = d := by
  by_cases h : i < c.length
  · left
    rw [List.getD_eq_getElem c d h]
    exact List.getElem_mem h
  · right
    rw [List.getD_eq_default]
    omega

/-- The scaling invariant of one preprocessing result: vacuous on an
error, and on success every entry of every row of the feature matrix
lies in the closed unit interval. -/
def preprocScaled (r : Except PyError (List (List ℚ) × List Value)) : Prop :=
  match r with
  | .error _ => True
  | .ok (X, _) => ∀ row ∈ X, ∀ v ∈ row, 0 ≤ v ∧ v ≤ 1

/-- C4: whatever table preprocessing is given, every value of every
feature column of the produced matrix X lies within [0, 1], each column
having been scaled by its own observed minimum and maximum. -/
theorem C4_preprocess_scales_into_unit_interval (df : DataFrame) :
    preprocScaled (_preprocess df) := by
  unfold _preprocess
  split
  · exact trivial
  next lastCol _ =>
    dsimp only
    split
    · exact trivial
    split
    · exact trivial
    simp only [preprocScaled]
    intro row hrow v hv
    simp only [List.mem_map] at hrow
    obtain ⟨i, _, hrowi⟩ := hrow
    subst hrowi
    simp only [List.mem_map] at hv
    obtain ⟨c, ⟨c0, hc0mem, hcc0⟩, hvc⟩ := hv
    subst hcc0
    subst hvc
    rcases getD_mem_or_default (minMaxScaleCol c0) i 0 with h | h
    · exact minMaxScaleCol_mem_unit h
    · rw [h]
      norm_num

/-- The frame property of one preprocessing result: vacuous on an error,
and on success the returned label vector is exactly the raw cell list of
the last column of the input table, in its original order. -/
def labelsUntouched (df : DataFrame) (r : Except PyError (List (List ℚ) × List Value)) : Prop :=
  match r with
  | .error _ => True
  | .ok (_, y) => ∃ c, (df : List (String × List Value)).getLast? = some c ∧ y = c.2

/-- C8: preprocessing passes the label column through unscaled and
unencoded, in the original row order. -/
theorem C8_labels_pass_through (df : DataFrame) :
    labelsUntouched df (_preprocess df) := by
  unfold _preprocess
  split
  · exact trivial
  next lastCol hlast =>
    dsimp only
    split
    · exact trivial
    split
    · exact trivial
    exact ⟨lastCol, hlast, rfl⟩

/-- A successfully built loader carries the constructor arguments and has
all four split containers filled. -/
lemma mk_ok_fields {fs : FileSystem} {path : String} {ts : ℚ} {seed : Nat}
    {l : Loader} (h : (mkSimpleNSLKDD fs path ts seed).1 = .ok l) :
    l.data_path = path ∧ l.test_size = ts ∧ l.random_state = seed ∧
    l.X_train.isSome ∧ l.y_train.isSome ∧ l.X_test.isSome ∧ l.y_test.isSome := by
  unfold mkSimpleNSLKDD at h
  split at h
  · simp at h
  · split at h
    · simp at h
    · split at h
      · simp at h
      next Xtr Xte ytr yte _ =>
        simp only at h
        injection h with h
        subst h
        simp

/-- C1: with no file at the path, the load step catches the missing-file
error, prints the two diagnostics and returns an empty table; but
construction then raises an uncaught IndexError when preprocessing that
zero-column table, instead of completing in an empty-table state (the
source comments intend the empty frame to avoid crashing the program,
and the demonstration entry point catches only ValueError and
FileNotFoundError). -/
theorem C1_missing_file_raises_index_error (path : String) :
    SimpleNSLKDD_load_data emptyFS path =
      (.ok ([] : List (String × List Value)),
       [s!"Error: Data file not found at {path}",
        "Please create a dummy data file to proceed."]) ∧
    mkSimpleNSLKDD emptyFS path (1/5 : ℚ) 42 =
      (.error (.indexError "single positional indexer is out-of-bounds"),
       [s!"Loading data from {path}...",
        s!"Error: Data file not found at {path}",
        "Please create a dummy data file to proceed.",
        "Preprocessing data..."]) := by
  constructor
  · rfl
  · rfl

/-- C6: the construction reads the filesystem only at its data path: two
constructions over the same input file, fixed test_size and fixed
random_state are identical, down to the split partitions and logs. -/
theorem C6_construction_deterministic (f1 f2 : FileSystem) (path : String)
    (ts : ℚ) (seed : Nat) (h : f1 path = f2 path) :
    mkSimpleNSLKDD f1 path ts seed = mkSimpleNSLKDD f2 path ts seed := by
  unfold mkSimpleNSLKDD SimpleNSLKDD_load_data read_csv
  rw [h]

/-- The second filesystem of the determinism witness: it differs from the
empty one away from the probed path. -/
def otherFS : FileSystem := fun p => if p = "x.csv" then none else some [["1"]]

/-- Witness for C6 at a concrete path and two distinct filesystems that
agree on it. -/
theorem C6_construction_deterministic_witness :
    mkSimpleNSLKDD emptyFS "x.csv" (1/5 : ℚ) 42 =
      mkSimpleNSLKDD otherFS "x.csv" (1/5 : ℚ) 42 :=
  C6_construction_deterministic emptyFS otherFS "x.csv" (1/5 : ℚ) 42 (by decide)

/-- C10: after construction the only public operation, get_data, always
returns the stored (X_train, y_train, X_test, y_test) tuple, and any
number of calls leaves every stored field of the loader unchanged. -/
theorem C10_get_data_pure (l : Loader) (k : Nat) :
    (runCalls l k).1 = List.replicate k (l.X_train, l.y_train, l.X_test, l.y_test) ∧
    (runCalls l k).2 = l := by
  induction k with
  | zero => simp [runCalls]
  | succ k ih =>
    refine ⟨?_, ?_⟩
    · simp only [runCalls, ih.1, get_data, List.replicate_succ]
    · simp only [runCalls, ih.2]

/-- C2: the split computes test_samples as the floor of
num_samples * test_size and compares it with the number of distinct
label values: at least as many test samples as classes invokes the
stratified split (the underlying splitter is passed the labels), and
otherwise the non-stratified splitter is invoked and the warning naming
the test-set size and the class count is printed. -/
theorem C2_stratification_decision (X : List (List ℚ)) (y : List Value)
    (ts : ℚ) (seed : Nat) (hts : 0 ≤ ts) :
    (((y.dedup.length : ℤ) ≤ ⌊(y.length : ℚ) * ts⌋ →
        (_split_data X y ts seed).1 = train_test_split X y ts seed (some y)) ∧
     (⌊(y.length : ℚ) * ts⌋ < (y.dedup.length : ℤ) →
        (_split_data X y ts seed).1 = train_test_split X y ts seed none ∧
        stratWarning ⌊(y.length : ℚ) * ts⌋ y.dedup.length ∈ (_split_data X y ts seed).2)) := by
  have hq : (0 : ℚ) ≤ (y.length : ℚ) * ts := mul_nonneg (Nat.cast_nonneg _) hts
  have hpy : pyInt ((y.length : ℚ) * ts) = ⌊(y.length : ℚ) * ts⌋ := by
    unfold pyInt
    rw [if_pos hq]
  constructor
  · intro hcase
    have hb : decide ((y.dedup.length : ℤ) ≤ pyInt ((y.length : ℚ) * ts)) = true := by
      rw [hpy]
      exact decide_eq_true hcase
    simp only [_split_data, hb, if_true]
    cases htts : train_test_split X y ts seed (some y) with
    | error e => simp [htts, hcase]
    | ok r => simp [htts, hcase]
  · intro hcase
    have hnot := not_le.mpr hcase
    have hb : decide ((y.dedup.length : ℤ) ≤ pyInt ((y.length : ℚ) * ts)) = false := by
      rw [hpy]
      exact decide_eq_false hnot
    simp only [_split_data, hb, if_false, hpy]
    cases htts : train_test_split X y ts seed none with
    | error e => simp [htts, hnot]
    | ok r => simp [htts, hnot]

/-- C5: an unregistered name makes the factory fail with the ValueError
whose message names the offending dataset and lists exactly the
registered names; and whenever the factory does hand back a loader, all
four containers returned by get_data are filled (non-None). -/
theorem C5_factory_error_and_nonnull (fs : FileSystem) (name path : String) :
    (name ∉ dataset_map_keys →
      get_dataset fs name path = (.error (.valueError (unknownDatasetMsg name)), []) ∧
      unknownDatasetMsg name = "Dataset " ++ pyQuote ++ name ++ pyQuote ++
        " not recognized. Available datasets: " ++
        ("[" ++ pyQuote ++ "simple_nslkdd" ++ pyQuote ++ "]")) ∧
    Option.all (fun l => (get_data l).1.isSome && (get_data l).2.1.isSome &&
        (get_data l).2.2.1.isSome && (get_data l).2.2.2.isSome)
      (getLoader? (get_dataset fs name path).1) = true := by
  constructor
  · intro hname
    constructor
    · unfold get_dataset
      rw [if_neg hname]
    · unfold unknownDatasetMsg
      congr 1
  · by_cases hname : name ∈ dataset_map_keys
    · unfold get_dataset
      rw [if_pos hname]
      cases hr : (mkSimpleNSLKDD fs path (1/5 : ℚ) 42).1 with
      | error e => simp [getLoader?, hr]
      | ok l =>
        obtain ⟨-, -, -, h1, h2, h3, h4⟩ := mk_ok_fields hr
        simp [getLoader?, hr, get_data, h1, h2, h3, h4]
    · unfold get_dataset
      rw [if_neg hname]
      simp [getLoader?]

/-- C9: whatever name and path the factory is called with, any loader it
returns was built with the fixed defaults test_size = 0.2 and
random_state = 42 (the factory passes only the data path, so its
interface offers no way to override either). -/
theorem C9_factory_fixed_defaults (fs : FileSystem) (name path : String) :
    Option.all (fun l => decide (l.test_size = (1/5 : ℚ) ∧ l.random_state = 42))
      (getLoader? (get_dataset fs name path).1) = true := by
  by_cases hname : name ∈ dataset_map_keys
  · unfold get_dataset
    rw [if_pos hname]
    cases hr : (mkSimpleNSLKDD fs path (1/5 : ℚ) 42).1 with
    | error e => simp [getLoader?, hr]
    | ok l =>
      obtain ⟨-, hts, hseed, -⟩ := mk_ok_fields hr
      simp [getLoader?, hr, hts, hseed]
  · unfold get_dataset
    rw [if_neg hname]
    simp [getLoader?]

/-- Reading back the names of zipped (name, column) pairs returns the
names, when there are enough columns. -/
lemma map_fst_zipWith_names : ∀ (names : List String) (cols : List (String × List Value)),
    names.length = cols.length →
    (List.zipWith (fun nm c => (nm, c.2)) names cols).map Prod.fst = names := by
  intro names
  induction names with
  | nil => intro cols _; simp
  | cons nm names ih =>
    intro cols h
    cases cols with
    | nil => simp at h
    | cons c cols =>
      simp only [List.zipWith_cons_cons, List.map_cons]
      rw [ih cols (by simpa using h)]

/-- C7: loading an existing headerless delimiter-separated file whose
rows all have w = n+1 fields yields a table whose first n columns are
named feature_0..feature_(n-1) and whose final column is named label. -/
theorem C7_synthesized_column_names (fs : FileSystem) (path : String)
    (rows : List (List String)) (w : Nat) (hfs : fs path = some rows)
    (hne : rows ≠ []) (hw : 0 < w) (hrect : ∀ r ∈ rows, r.length = w) :
    ∃ df : DataFrame, (SimpleNSLKDD_load_data fs path).1 = .ok df ∧
      (df : List (String × List Value)).map Prod.fst =
        (List.range (w - 1)).map (fun i => s!"feature_{i}") ++ ["label"] := by
  have hempty : rows.isEmpty = false := by
    cases rows with
    | nil => exact absurd rfl hne
    | cons r rs => rfl
  have hhead : (rows.headD []).length = w := by
    cases rows with
    | nil => exact absurd rfl hne
    | cons r rs => exact hrect r (List.mem_cons_self r rs)
  have hall : rows.all (fun r => decide (r.length = (rows.headD []).length)) = true := by
    rw [List.all_eq_true]
    intro r hr
    rw [hhead]
    exact decide_eq_true (hrect r hr)
  unfold SimpleNSLKDD_load_data read_csv
  rw [hfs]
  dsimp only
  rw [if_neg (by simp [hempty]), if_pos hall]
  dsimp only
  refine ⟨_, rfl, ?_⟩
  have hlen0 : ((List.range (rows.headD []).length).map
      (fun j => (toString j, parseColumn (rows.map (fun r => r.getD j ""))))).length = w := by
    simp only [List.length_map, List.length_range]
    exact hhead
  rw [map_fst_zipWith_names _ _ (by
    simp only [List.length_append, List.length_map, List.length_range, hlen0,
      List.length_cons, List.length_nil]
    omega)]
  rw [hlen0]

/-- A ten-row feature matrix for the stratified-branch witness. -/
def X10 : List (List ℚ) := (List.range 10).map (fun i => [(i : ℚ)])

/-- Ten alternating binary labels: two classes, test floor 2. -/
def y10 : List Value :=
  [.num 0, .num 1, .num 0, .num 1, .num 0, .num 1, .num 0, .num 1, .num 0, .num 1]

/-- A five-row feature matrix for the fallback-branch witness. -/
def X5 : List (List ℚ) := (List.range 5).map (fun i => [(i : ℚ)])

/-- Five alternating binary labels: two classes, test floor 1. -/
def y5 : List Value := [.num 0, .num 1, .num 0, .num 1, .num 0]

/-- Witness for C2: ten rows with two classes take the stratified branch,
and five rows with two classes take the fallback branch and print the
warning. -/
theorem C2_stratification_decision_witness :
    ((_split_data X10 y10 (1/5 : ℚ) 42).1 =
      train_test_split X10 y10 (1/5 : ℚ) 42 (some y10)) ∧
    ((_split_data X5 y5 (1/5 : ℚ) 42).1 =
        train_test_split X5 y5 (1/5 : ℚ) 42 none ∧
      stratWarning ⌊(y5.length : ℚ) * (1/5 : ℚ)⌋ y5.dedup.length ∈
        (_split_data X5 y5 (1/5 : ℚ) 42).2) :=
  ⟨(C2_stratification_decision X10 y10 (1/5 : ℚ) 42 (by norm_num)).1 (by norm_num [y10]),
   (C2_stratification_decision X5 y5 (1/5 : ℚ) 42 (by norm_num)).2 (by norm_num [y5])⟩

/-- The three-row sample file behind the factory and loader witnesses. -/
def wrows : List (List String) := [["1", "0", "a"], ["2", "1", "b"], ["0", "0", "a"]]

/-- A filesystem holding just the sample file. -/
def wfs : FileSystem := fun p => if p = "d.csv" then some wrows else none

/-- Witness for C5: the unregistered name nope is rejected with the
enumerating message, and the registered name on the sample file passes
the non-None check. -/
theorem C5_factory_error_and_nonnull_witness :
    (get_dataset emptyFS "nope" "x.csv" =
        (.error (.valueError (unknownDatasetMsg "nope")), []) ∧
      unknownDatasetMsg "nope" = "Dataset " ++ pyQuote ++ "nope" ++ pyQuote ++
        " not recognized. Available datasets: " ++
        ("[" ++ pyQuote ++ "simple_nslkdd" ++ pyQuote ++ "]")) ∧
    Option.all (fun l => (get_data l).1.isSome && (get_data l).2.1.isSome &&
        (get_data l).2.2.1.isSome && (get_data l).2.2.2.isSome)
      (getLoader? (get_dataset wfs "simple_nslkdd" "d.csv").1) = true :=
  ⟨(C5_factory_error_and_nonnull emptyFS "nope" "x.csv").1 (by decide),
   (C5_factory_error_and_nonnull wfs "simple_nslkdd" "d.csv").2⟩

/-- Witness for C7 on the three-row sample file with three columns. -/
theorem C7_synthesized_column_names_witness :
    ∃ df : DataFrame, (SimpleNSLKDD_load_data wfs "d.csv").1 = .ok df ∧
      (df : List (String × List Value)).map Prod.fst =
        (List.range (3 - 1)).map (fun i => s!"feature_{i}") ++ ["label"] :=
  C7_synthesized_column_names wfs "d.csv" wrows 3 rfl (by decide) (by decide)
    (by decide)

/-- C3: whenever the splitting step succeeds, the train and test sizes
add up to the input size, X and y agree in length on the input and on
both parts, and every X row stays paired with its label across the
split (the paired rows of train and test permute the paired input
rows). -/
theorem C3_split_shapes_and_pairing (X : List (List ℚ)) (y : List Value)
    (ts : ℚ) (seed : Nat) :
    splitInvariant X y (_split_data X y ts seed).1 := by
  have h1 := tts_invariant X y ts seed
    (if ((y.dedup.length : ℤ) ≤ pyInt ((y.length : ℚ) * ts) : Bool) then some y else none)
  simp only [_split_data]
  cases htts : train_test_split X y ts seed
      (if ((y.dedup.length : ℤ) ≤ pyInt ((y.length : ℚ) * ts) : Bool) then some y else none) with
  | error e =>
    rw [htts] at h1
    simpa [htts] using h1
  | ok r =>
    rw [htts] at h1
    simpa [htts] using h1
